import Mathlib

/-!
Shallow embedding of the voice-command service (Flask app `app.py` and the
services `voice_recognition.py`, `gemini_service.py`, `text_to_speech.py`).

Python strings are modelled as Lean `String` (character lists via `.data`
where Python indexes into the string), the filesystem as a `Finset String`
of existing paths, and each fallible external capability (pydub decoding,
the Google speech/LLM/TTS network services) as an explicit parameter
returning `Option`/an outcome type, matching the try/except structure of
the source.
-/

/-! ## String helpers mirroring the Python operations used by the source -/

/-- The characters of `cs` after the last `'.'`:
Python `s.rsplit('.', 1)[1]` when `'.' in s`. -/
def afterLastDotL (cs : List Char) : List Char :=
  (cs.reverse.takeWhile (fun c => c != '.')).reverse

/-- The characters of `cs` strictly before the last `'.'`:
the complement of `afterLastDotL` minus the dot itself. -/
def beforeLastDotL (cs : List Char) : List Char :=
  ((cs.reverse.dropWhile (fun c => c != '.')).drop 1).reverse

/-- Python `s.lower()` (ASCII case folding, which is all the source needs). -/
def lowerStr (s : String) : String :=
  s.map Char.toLower

/-- Python `os.path.basename(p)`: the part of `p` after the last `'/'`. -/
def basenameStr (p : String) : String :=
  ((p.data.reverse.takeWhile (fun c => c != '/')).reverse).asString

/-- Python `os.path.join(a, b)` for POSIX paths as used by the source. -/
def os_path_join (a b : String) : String :=
  if b.data.head? = some '/' then b
  else if a.data.getLast? = some '/' ∨ a = "" then a ++ b
  else a ++ "/" ++ b

/-- Python `os.path.splitext(p)`: split off the extension at the last dot of
the basename, where dots leading the basename never start an extension. -/
def splitextL (p : List Char) : List Char × List Char :=
  let revp := p.reverse
  let base := (revp.takeWhile (fun c => c != '/')).reverse
  let dir := (revp.dropWhile (fun c => c != '/')).reverse
  let lead := base.takeWhile (fun c => c == '.')
  let rest := base.dropWhile (fun c => c == '.')
  if rest.contains '.' then
    (dir ++ lead ++ beforeLastDotL rest, '.' :: afterLastDotL rest)
  else
    (p, [])

/-- Python `s.strip()`: remove leading and trailing whitespace. -/
def pyStrip (s : String) : String :=
  (((s.data.dropWhile Char.isWhitespace).reverse.dropWhile Char.isWhitespace).reverse).asString

/-- Lookup in a JSON object / Python dict modelled as an association list:
`d['k']` guarded by `'k' in d`. -/
def dictLookup (k : String) (d : List (String × String)) : Option String :=
  (d.find? (fun p => p.1 == k)).map (fun p => p.2)

/-! ## `app.py`: configuration and upload validation -/

/-- `ALLOWED_EXTENSIONS = {'wav', 'mp3', 'ogg', 'm4a', 'flac', 'webm'}` -/
def ALLOWED_EXTENSIONS : List String :=
  ["wav", "mp3", "ogg", "m4a", "flac", "webm"]

/-- `app.config['UPLOAD_FOLDER'] = 'uploads'` -/
def UPLOAD_FOLDER : String := "uploads"

/-- `allowed_file(filename)` from `app.py`:
`'.' in filename and filename.rsplit('.', 1)[1].lower() in ALLOWED_EXTENSIONS`. -/
def allowed_file (filename : String) : Bool :=
  filename.data.contains '.' &&
    ALLOWED_EXTENSIONS.contains ((afterLastDotL filename.data).map Char.toLower).asString

/-- An HTTP response as produced by the handlers: a status code plus a JSON
object body modelled as an association list of string fields. -/
structure Response where
  status : Nat
  body : List (String × String)
deriving DecidableEq

/-- The three externally-backed stage services as seen from the orchestrator:
each returns `some value` on success and `none` on any failure (the Python
services catch their own exceptions and return `None`). -/
structure Stages where
  recognize : String → Option String
  generate : String → Option String
  synthesize : String → Option String

/-- The error message of the invalid-file-type branch of `voice_command`. -/
def invalid_type_message : String :=
  "Invalid file type. Allowed types: " ++ String.intercalate ", " ALLOWED_EXTENSIONS

/-- `voice_command()` from `app.py`, as a function of the stage services, the
`secure_filename` sanitizer, the `audio` form field (absent, or present with
its filename) and the filesystem; returns the response and the filesystem
after the handler returns.  Stage services are modelled as pure `Option`
calls here; the converted-file effects internal to recognition are modelled
at the service level by `speech_to_text` below. -/
def voice_command (st : Stages) (secure : String → String)
    (audioField : Option String) (fs : Finset String) : Response × Finset String :=
  match audioField with
  | none => (⟨400, [("error", "No audio file provided")]⟩, fs)
  | some fname =>
    if fname = "" then
      (⟨400, [("error", "No file selected")]⟩, fs)
    else if allowed_file fname then
      let filename := secure fname
      let filepath := os_path_join UPLOAD_FOLDER filename
      let fs1 := insert filepath fs
      match st.recognize filepath with
      | none =>
          (⟨400, [("error", "Could not recognize speech from audio")]⟩, fs1.erase filepath)
      | some recognized_text =>
        match st.generate recognized_text with
        | none =>
            (⟨500, [("error", "Could not get response from Gemini")]⟩, fs1.erase filepath)
        | some gemini_response =>
          match st.synthesize gemini_response with
          | none =>
              (⟨500, [("error", "Could not generate audio response")]⟩, fs1.erase filepath)
          | some audio_response_path =>
              (⟨200, [("status", "success"),
                      ("recognized_text", recognized_text),
                      ("response_text", gemini_response),
                      ("audio_response_url",
                        "/download-audio/" ++ basenameStr audio_response_path)]⟩,
               fs1.erase filepath)
    else
      (⟨400, [("error", invalid_type_message)]⟩, fs)

/-- A record of one external-stage invocation made by `text_command`,
used to state that a stage was (not) reached. -/
inductive StageCall
  | genCall (input : String)
  | ttsCall (input : String)
deriving DecidableEq

/-- `text_command()` from `app.py`: the JSON body is `none` when missing and
otherwise an association list; returns the response together with the list of
stage invocations the handler performed, in order. -/
def text_command (gen tts : String → Option String)
    (body : Option (List (String × String))) : Response × List StageCall :=
  match body with
  | none => (⟨400, [("error", "No text provided")]⟩, [])
  | some data =>
    match dictLookup "text" data with
    | none => (⟨400, [("error", "No text provided")]⟩, [])
    | some t =>
      let input_text := pyStrip t
      if input_text = "" then
        (⟨400, [("error", "Empty text provided")]⟩, [])
      else
        match gen input_text with
        | none =>
            (⟨500, [("error", "Could not get response from Gemini")]⟩,
             [StageCall.genCall input_text])
        | some gemini_response =>
          match tts gemini_response with
          | none =>
              (⟨500, [("error", "Could not generate audio response")]⟩,
               [StageCall.genCall input_text, StageCall.ttsCall gemini_response])
          | some audio_response_path =>
              (⟨200, [("status", "success"),
                      ("input_text", input_text),
                      ("response_text", gemini_response),
                      ("audio_response_url",
                        "/download-audio/" ++ basenameStr audio_response_path)]⟩,
               [StageCall.genCall input_text, StageCall.ttsCall gemini_response])

/-! ## `services/voice_recognition.py`: audio normalization and recognition -/

/-- The decode routine `_convert_to_wav` dispatches to, by extension:
`AudioSegment.from_mp3` / `from_ogg` / `from_file(..., fmt)` / generic
`from_file`. -/
inductive DecodeRoutine
  | from_mp3 | from_ogg | from_m4a | from_flac | from_webm | from_file_generic
deriving DecidableEq

/-- The extension dispatch of `_convert_to_wav`. -/
def decodeRoutineFor (file_ext : String) : DecodeRoutine :=
  if file_ext = ".mp3" then DecodeRoutine.from_mp3
  else if file_ext = ".ogg" then DecodeRoutine.from_ogg
  else if file_ext = ".m4a" then DecodeRoutine.from_m4a
  else if file_ext = ".flac" then DecodeRoutine.from_flac
  else if file_ext = ".webm" then DecodeRoutine.from_webm
  else DecodeRoutine.from_file_generic

/-- `_convert_to_wav(audio_file_path)` from `voice_recognition.py`.
`decodeExport r p` models the external pydub decode of `p` by routine `r`
followed by `audio.export(wav_path, format="wav")`: `some ()` when both
succeed, `none` when either raises (the whole body is one try/except that
falls back to the original path). -/
def convert_to_wav (decodeExport : DecodeRoutine → String → Option Unit)
    (audio_file_path : String) : String :=
  let file_ext := ((splitextL audio_file_path.data).2.map Char.toLower).asString
  if file_ext = ".wav" then audio_file_path
  else
    let wav_path := (splitextL audio_file_path.data).1.asString ++ "_converted.wav"
    match decodeExport (decodeRoutineFor file_ext) audio_file_path with
    | some _ => wav_path
    | none => audio_file_path

/-- The three outcomes of `recognizer.recognize_google(audio_data)`:
a transcript, `sr.UnknownValueError` (no-match), or `sr.RequestError`
(service unreachable or rejected). -/
inductive RecognizeOutcome
  | recognized (text : String)
  | unknownValueError
  | requestError
deriving DecidableEq

/-- The external capabilities `speech_to_text` relies on: the pydub
decode/export used by `_convert_to_wav`, whether loading/recording the WAV
with `sr.AudioFile` succeeds (an exception there is caught by the outer
try/except), and the outcome of the Google recognition call. -/
structure RecogEnv where
  decodeExport : DecodeRoutine → String → Option Unit
  loadOk : String → Bool
  recognize : String → RecognizeOutcome

/-- `speech_to_text(audio_file_path)` from `voice_recognition.py`, with the
filesystem threaded through: `_convert_to_wav` adds the converted file
exactly when it returns a path different from its input (its success case),
and the source deletes `wav_path` only in the branch where recognition
returned a transcript, guarded by `wav_path != audio_file_path and
os.path.exists(wav_path)`. -/
def speech_to_text (env : RecogEnv) (audio_file_path : String)
    (fs : Finset String) : Option String × Finset String :=
  let wav_path := convert_to_wav env.decodeExport audio_file_path
  let fs1 := if wav_path ≠ audio_file_path then insert wav_path fs else fs
  if env.loadOk wav_path then
    match env.recognize wav_path with
    | RecognizeOutcome.recognized text =>
        if wav_path ≠ audio_file_path ∧ wav_path ∈ fs1 then
          (some text, fs1.erase wav_path)
        else
          (some text, fs1)
    | RecognizeOutcome.unknownValueError => (none, fs1)
    | RecognizeOutcome.requestError => (none, fs1)
  else
    (none, fs1)

/-! ## `services/gemini_service.py`: response generation -/

/-- The state `GeminiService.__init__` establishes on success. -/
structure GeminiService where
  api_key : String
deriving DecidableEq

/-- `GeminiService.__init__` from `gemini_service.py`: `os.getenv` yields
`none` when `GOOGLE_API_KEY` is unset, and `if not self.api_key` raises on
both `None` and the empty string; `mkModel` models the subsequent
`genai.GenerativeModel` construction, whose exception is re-raised. -/
def GeminiService_init (env_GOOGLE_API_KEY : Option String)
    (mkModel : Except String Unit) : Except String GeminiService :=
  let api_key := env_GOOGLE_API_KEY.getD ""
  if api_key = "" then
    Except.error "GOOGLE_API_KEY environment variable is required"
  else
    match mkModel with
    | Except.error e => Except.error e
    | Except.ok _ => Except.ok ⟨api_key⟩

/-- One conversation turn as `get_contextual_response` reads it: a dict that
may or may not carry the `'user'` and `'assistant'` keys. -/
structure Turn where
  user : Option String
  assistant : Option String
deriving DecidableEq

/-- The body of the `for turn in conversation_history[-5:]` loop of
`get_contextual_response`: if the turn has both keys, append the user line
and then the assistant line to `context_parts`. -/
def context_step (acc : List String) (turn : Turn) : List String :=
  match turn.user, turn.assistant with
  | some u, some a => (acc ++ ["User: " ++ u]) ++ ["Assistant: " ++ a]
  | _, _ => acc

/-- The `context_parts` list built by `get_contextual_response`: iterate over
`conversation_history[-5:]` (the last five turns), starting from the empty
list, applying the loop body to each turn. -/
def context_parts (conversation_history : List Turn) : List String :=
  (conversation_history.drop (conversation_history.length - 5)).foldl context_step []

/-- The text of the history-bearing prompt of `get_contextual_response`
that precedes the joined context lines. -/
def contextual_prompt_pre : String :=
  "\n                Previous conversation:\n                "

/-- The text of the history-bearing prompt of `get_contextual_response`
that follows the joined context lines. -/
def contextual_prompt_post (current_text : String) : String :=
  "\n                \n                Current user input: " ++ current_text ++
  "\n                \n                Please provide a helpful response that takes into account the conversation context.\n                Keep it conversational as it will be converted to speech.\n                "

/-- The `full_prompt` constructed by `get_contextual_response`. -/
def contextual_prompt (current_text : String) (conversation_history : List Turn) :
    String :=
  let parts := context_parts conversation_history
  if parts ≠ [] then
    contextual_prompt_pre ++ String.intercalate "\n" parts ++
      contextual_prompt_post current_text
  else
    "\n                User input: " ++ current_text ++
    "\n                \n                Please provide a helpful and conversational response.\n                "

/-! ## `services/text_to_speech.py`: output-directory sweep -/

/-- One entry of `os.listdir(self.output_dir)` with the metadata
`cleanup_old_files` consults: its `os.path.getctime` and whether
`os.path.isfile` holds. -/
structure DirEntry where
  name : String
  ctime : Int
  isFile : Bool
deriving DecidableEq

/-- `cleanup_old_files(max_age_hours)` from `text_to_speech.py`: delete every
regular file whose age `current_time - getctime` strictly exceeds
`max_age_hours * 3600` seconds; returns the directory contents afterwards. -/
def cleanup_old_files (max_age_hours : Nat) (current_time : Int)
    (output_dir : List DirEntry) : List DirEntry :=
  let max_age_seconds : Int := (max_age_hours : Int) * 3600
  output_dir.filter
    (fun e => !(e.isFile && decide (current_time - e.ctime > max_age_seconds)))

/-! ## Concrete instances used by witnesses and counterexamples -/

/-- An environment in which conversion succeeds and recognition reports
`sr.UnknownValueError` (no-match). -/
def leakEnv : RecogEnv :=
  ⟨fun _ _ => some (), fun _ => true, fun _ => RecognizeOutcome.unknownValueError⟩

/-- An environment in which conversion succeeds and recognition returns a
transcript. -/
def okEnv : RecogEnv :=
  ⟨fun _ _ => some (), fun _ => true, fun _ => RecognizeOutcome.recognized "hello"⟩

/-- Stage services that fail at generation, for concrete runs of the
handlers. -/
def genFailStages : Stages :=
  ⟨fun _ => some "hi there", fun _ => none, fun _ => some "static/audio/r.mp3"⟩

/-- A conversation history of eight well-formed turns. -/
def history8 : List Turn :=
  [⟨some "u1", some "a1"⟩, ⟨some "u2", some "a2"⟩, ⟨some "u3", some "a3"⟩,
   ⟨some "u4", some "a4"⟩, ⟨some "u5", some "a5"⟩, ⟨some "u6", some "a6"⟩,
   ⟨some "u7", some "a7"⟩, ⟨some "u8", some "a8"⟩]

/-! ## Helper lemmas -/

/-- Every element kept by `takeWhile` satisfies the predicate. -/
theorem mem_takeWhile_pred {α : Type} (p : α → Bool) :
    ∀ (l : List α) (a : α), a ∈ l.takeWhile p → p a = true := by
  intro l
  induction l with
  | nil => intro a h; simp [List.takeWhile] at h
  | cons b l ih =>
    intro a h
    by_cases hb : p b = true
    · rw [List.takeWhile_cons, if_pos hb] at h
      rcases List.mem_cons.mp h with h | h
      · rw [h]; exact hb
      · exact ih a h
    · rw [List.takeWhile_cons, if_neg hb] at h
      simp at h

/-- `takeWhile (· != '.')` of a dot-free prefix followed by a dot is that
prefix. -/
theorem takeWhile_ne_dot_append (l1 l2 : List Char) (h : '.' ∉ l1) :
    (l1 ++ '.' :: l2).takeWhile (fun c => c != '.') = l1 := by
  induction l1 with
  | nil => simp [List.takeWhile_cons]
  | cons a l1 ih =>
    have ha : a ≠ '.' := fun hh => h (hh ▸ List.mem_cons_self a l1)
    have ha' : (a != '.') = true := by simp [ha]
    rw [List.cons_append, List.takeWhile_cons, if_pos ha',
      ih (fun hh => h (List.mem_cons_of_mem a hh))]

/-- `afterLastDotL` of a string ending in a dot-free suffix after a dot is
that suffix. -/
theorem afterLastDotL_append (pre post : List Char) (h : '.' ∉ post) :
    afterLastDotL (pre ++ '.' :: post) = post := by
  unfold afterLastDotL
  have hrev : (pre ++ '.' :: post).reverse = post.reverse ++ '.' :: pre.reverse := by
    simp
  rw [hrev, takeWhile_ne_dot_append _ _ (by simpa using h), List.reverse_reverse]

/-- Any list containing a dot splits as `takeWhile ++ '.' :: rest`. -/
theorem takeWhile_dot_decomp :
    ∀ (l : List Char), '.' ∈ l →
      l.takeWhile (fun c => c != '.') ++ '.' :: (l.dropWhile (fun c => c != '.')).tail = l := by
  intro l
  induction l with
  | nil => intro h; simp at h
  | cons a l ih =>
    intro h
    by_cases ha : a = '.'
    · subst ha
      simp [List.takeWhile_cons, List.dropWhile_cons]
    · have ha' : (a != '.') = true := by simp [ha]
      have hl : '.' ∈ l := by
        rcases List.mem_cons.mp h with h | h
        · exact absurd h.symm ha
        · exact h
      rw [List.takeWhile_cons, if_pos ha', List.dropWhile_cons, if_pos ha',
        List.cons_append, ih hl]

/-- Any character list containing a dot decomposes around its last dot, with
`afterLastDotL` giving the dot-free tail. -/
theorem afterLastDotL_decomp (cs : List Char) (h : '.' ∈ cs) :
    ∃ pre, cs = pre ++ '.' :: afterLastDotL cs ∧ '.' ∉ afterLastDotL cs := by
  have hrev : '.' ∈ cs.reverse := List.mem_reverse.mpr h
  have hdec := takeWhile_dot_decomp cs.reverse hrev
  refine ⟨((cs.reverse.dropWhile (fun c => c != '.')).tail).reverse, ?_, ?_⟩
  · conv_lhs => rw [← cs.reverse_reverse, ← hdec]
    simp [afterLastDotL]
  · intro hmem
    have : '.' ∈ cs.reverse.takeWhile (fun c => c != '.') := by
      simpa [afterLastDotL] using hmem
    have := mem_takeWhile_pred _ _ _ this
    simp at this

/-- The result filesystem of the saved branch of `voice_command` is the
upload inserted then erased, whichever stage exit is taken. -/
theorem voice_command_fs_eq (st : Stages) (secure : String → String)
    (fname : String) (fs : Finset String)
    (hne : fname ≠ "") (hal : allowed_file fname = true) :
    (voice_command st secure (some fname) fs).2 =
      (insert (os_path_join UPLOAD_FOLDER (secure fname)) fs).erase
        (os_path_join UPLOAD_FOLDER (secure fname)) := by
  dsimp only [voice_command]
  rw [if_neg hne, if_pos hal]
  split
  · rfl
  · split
    · rfl
    · split
      · rfl
      · rfl

/-! ## Claim theorems -/

/-- Claim C1: for every voice-command request in which the uploaded file is
saved to temporary storage (audio field present, filename non-empty, extension
allowed), the uploaded file no longer exists in temporary storage when the
handler returns; with the stage services universally quantified this covers
every exit path — recognition failure, generation failure, synthesis failure,
and success. -/
theorem voice_command_upload_removed_on_return (st : Stages)
    (secure : String → String) (fname : String) (fs : Finset String)
    (hne : fname ≠ "") (hal : allowed_file fname = true) :
    os_path_join UPLOAD_FOLDER (secure fname) ∉ (voice_command st secure (some fname) fs).2 := by
  rw [voice_command_fs_eq st secure fname fs hne hal]
  exact Finset.not_mem_erase _ _

/-- Witness for C1 at a concrete request whose generation stage fails. -/
theorem voice_command_upload_removed_on_return_witness :
    ("a.wav" : String) ≠ "" ∧ allowed_file "a.wav" = true ∧
    os_path_join UPLOAD_FOLDER (id "a.wav") ∉ (voice_command genFailStages id (some "a.wav") ∅).2 :=
  ⟨by decide, by decide,
    voice_command_upload_removed_on_return genFailStages id "a.wav" ∅ (by decide) (by decide)⟩

/-- Claim C3: for every uploaded filename whose extension is outside the
allow-list, the voice-command handler responds 400 with the invalid-file-type
error and the temporary storage is unchanged. -/
theorem voice_command_invalid_file_type (st : Stages) (secure : String → String)
    (fname : String) (fs : Finset String)
    (hne : fname ≠ "") (hal : allowed_file fname = false) :
    voice_command st secure (some fname) fs =
      (⟨400, [("error", invalid_type_message)]⟩, fs) := by
  dsimp only [voice_command]
  rw [if_neg hne, if_neg (by simp [hal])]

/-- Witness for C3 at the disallowed filename `a.txt`. -/
theorem voice_command_invalid_file_type_witness :
    ("a.txt" : String) ≠ "" ∧ allowed_file "a.txt" = false ∧
    voice_command genFailStages id (some "a.txt") ∅ =
      (⟨400, [("error", invalid_type_message)]⟩, ∅) :=
  ⟨by decide, by decide,
    voice_command_invalid_file_type genFailStages id "a.txt" ∅ (by decide) (by decide)⟩

/-- Claim C4: for every text-command request whose text value is empty after
trimming whitespace, the handler responds 400 with the empty-input error and
performs no generation or synthesis stage call. -/
theorem text_command_empty_input (gen tts : String → Option String)
    (data : List (String × String)) (t : String)
    (hlk : dictLookup "text" data = some t) (htrim : pyStrip t = "") :
    text_command gen tts (some data) =
      (⟨400, [("error", "Empty text provided")]⟩, []) := by
  simp [text_command, hlk, htrim]

/-- Witness for C4 at the whitespace-only input `"  "`. -/
theorem text_command_empty_input_witness :
    dictLookup "text" [("text", "  ")] = some "  " ∧ pyStrip "  " = "" ∧
    text_command (fun _ => some "x") (fun _ => some "y") (some [("text", "  ")]) =
      (⟨400, [("error", "Empty text provided")]⟩, []) :=
  ⟨by decide, by decide,
    text_command_empty_input (fun _ => some "x") (fun _ => some "y") [("text", "  ")] "  "
      (by decide) (by decide)⟩

/-- Claim C5: the audio normalizer returns its input path unchanged when the
extension is already the canonical `.wav` (after lowercasing, as the source
does), and returns the original input path rather than failing whenever the
external decode/re-encode capability fails. -/
theorem convert_to_wav_fallback (dec : DecodeRoutine → String → Option Unit)
    (p : String) :
    (((splitextL p.data).2.map Char.toLower).asString = ".wav" →
        convert_to_wav dec p = p)
    ∧ ((∀ r q, dec r q = none) → convert_to_wav dec p = p) := by
  constructor
  · intro h
    dsimp only [convert_to_wav]
    rw [if_pos h]
  · intro h
    dsimp only [convert_to_wav]
    split
    · rfl
    · rw [h]

/-- Witness for C5: a `.wav` path is returned unchanged even with a working
decoder, and a failing decoder leaves an `.mp3` path unchanged. -/
theorem convert_to_wav_fallback_witness :
    convert_to_wav (fun _ _ => some ()) "uploads/b.wav" = "uploads/b.wav" ∧
    convert_to_wav (fun _ _ => none) "uploads/b.mp3" = "uploads/b.mp3" :=
  ⟨(convert_to_wav_fallback (fun _ _ => some ()) "uploads/b.wav").1 (by decide),
   (convert_to_wav_fallback (fun _ _ => none) "uploads/b.mp3").2 (fun _ _ => rfl)⟩

/-- Claim C6: the sweep deletes exactly the regular files whose age strictly
exceeds the threshold and leaves every other entry in place; in particular
with files aged 1h, 23h and 25h and a 24h threshold, exactly the 25h file is
removed. -/
theorem cleanup_old_files_exact :
    (∀ (max_age_hours : Nat) (current_time : Int) (dir : List DirEntry) (e : DirEntry),
        e ∈ cleanup_old_files max_age_hours current_time dir ↔
          e ∈ dir ∧ ¬(e.isFile = true ∧
            current_time - e.ctime > (max_age_hours : Int) * 3600))
    ∧ cleanup_old_files 24 100000
          [⟨"one_h.mp3", 96400, true⟩, ⟨"twentythree_h.mp3", 17200, true⟩,
           ⟨"twentyfive_h.mp3", 10000, true⟩] =
        [⟨"one_h.mp3", 96400, true⟩, ⟨"twentythree_h.mp3", 17200, true⟩] := by
  constructor
  · intro max_age_hours current_time dir e
    simp [cleanup_old_files, List.mem_filter]
    intro _
    cases hf : e.isFile <;> simp [hf]
  · decide

/-- Claim C9: constructing the Gemini service with the credential environment
variable unset or empty fails with an error, and every successfully
constructed service carries the non-empty credential taken from the
environment. -/
theorem GeminiService_init_requires_key :
    (∀ mk, GeminiService_init none mk =
        Except.error "GOOGLE_API_KEY environment variable is required")
    ∧ (∀ mk, GeminiService_init (some "") mk =
        Except.error "GOOGLE_API_KEY environment variable is required")
    ∧ (∀ env mk s, GeminiService_init env mk = Except.ok s →
        s.api_key ≠ "" ∧ env = some s.api_key) := by
  refine ⟨fun mk => rfl, fun mk => rfl, ?_⟩
  intro env mk s h
  dsimp only [GeminiService_init] at h
  by_cases hk : env.getD "" = ""
  · rw [if_pos hk] at h
    exact absurd h (by simp)
  · rw [if_neg hk] at h
    cases mk with
    | error e => simp at h
    | ok u =>
      simp only [Except.ok.injEq] at h
      cases env with
      | none => exact absurd rfl hk
      | some k =>
        rw [← h]
        exact ⟨hk, rfl⟩

/-- Witness for C9 at a present, non-empty credential. -/
theorem GeminiService_init_requires_key_witness :
    GeminiService_init (some "key123") (Except.ok ()) = Except.ok ⟨"key123"⟩ ∧
    ((GeminiService.mk "key123").api_key ≠ "" ∧
      (some "key123" : Option String) = some (GeminiService.mk "key123").api_key) :=
  ⟨rfl,
    GeminiService_init_requires_key.2.2 (some "key123") (Except.ok ()) ⟨"key123"⟩ rfl⟩

/-- Claim C8: when a voice-command request fails at the generation or
synthesis stage, the error response body is exactly one error string; in
particular no field of the body carries the recognized text or any other
partial result. -/
theorem voice_command_error_body (st : Stages) (secure : String → String)
    (fname : String) (fs : Finset String)
    (hne : fname ≠ "") (hal : allowed_file fname = true)
    (hfail :
      (∃ t, st.recognize (os_path_join UPLOAD_FOLDER (secure fname)) = some t ∧
          st.generate t = none) ∨
      (∃ t g, st.recognize (os_path_join UPLOAD_FOLDER (secure fname)) = some t ∧
          st.generate t = some g ∧ st.synthesize g = none)) :
    ∃ m, (voice_command st secure (some fname) fs).1.body = [("error", m)] ∧
      ∀ kv ∈ (voice_command st secure (some fname) fs).1.body, kv.1 = "error" := by
  rcases hfail with ⟨t, hr, hg⟩ | ⟨t, g, hr, hg, hs⟩
  · exact ⟨"Could not get response from Gemini",
      by simp [voice_command, hne, hal, hr, hg],
      by simp [voice_command, hne, hal, hr, hg]⟩
  · exact ⟨"Could not generate audio response",
      by simp [voice_command, hne, hal, hr, hg, hs],
      by simp [voice_command, hne, hal, hr, hg, hs]⟩

/-- Witness for C8 at a concrete request whose generation stage fails. -/
theorem voice_command_error_body_witness :
    ∃ m, (voice_command genFailStages id (some "a.wav") ∅).1.body = [("error", m)] ∧
      ∀ kv ∈ (voice_command genFailStages id (some "a.wav") ∅).1.body, kv.1 = "error" :=
  voice_command_error_body genFailStages id "a.wav" ∅ (by decide) (by decide)
    (Or.inl ⟨"hi there", by decide, by decide⟩)

/-- Claim C2 (counterexample): a no-match recognition failure on a request
whose normalization created `uploads/a_converted.wav` from `uploads/a.mp3`
returns with the converted file still present in the filesystem — the
failure branches of `speech_to_text` do not delete it. -/
theorem speech_to_text_leak_counterexample :
    (speech_to_text leakEnv "uploads/a.mp3" {"uploads/a.mp3"}).1 = none ∧
    convert_to_wav leakEnv.decodeExport "uploads/a.mp3" = "uploads/a_converted.wav" ∧
    ("uploads/a_converted.wav" : String) ≠ "uploads/a.mp3" ∧
    "uploads/a_converted.wav" ∈ (speech_to_text leakEnv "uploads/a.mp3" {"uploads/a.mp3"}).2 := by
  refine ⟨?_, ?_, ?_, ?_⟩ <;> decide

/-- Claim C2 (amended): when recognition yields a transcript, a converted
file differing from the original upload path is deleted; but on the no-match
and service-error branches the converted file is left in place. -/
theorem speech_to_text_converted_cleanup (env : RecogEnv) (path wav : String)
    (fs : Finset String)
    (hwav : convert_to_wav env.decodeExport path = wav)
    (hload : env.loadOk wav = true) :
    ((∃ t, env.recognize wav = RecognizeOutcome.recognized t) → wav ≠ path →
        wav ∉ (speech_to_text env path fs).2)
    ∧ ((env.recognize wav = RecognizeOutcome.unknownValueError ∨
          env.recognize wav = RecognizeOutcome.requestError) → wav ≠ path →
        wav ∈ (speech_to_text env path fs).2) := by
  constructor
  · rintro ⟨t, ht⟩ hne
    simp [speech_to_text, hwav, hload, ht, hne]
  · intro hout hne
    rcases hout with ht | ht <;>
    · simp [speech_to_text, hwav, hload, ht, hne]

/-- Witness for the amended C2 at a successful recognition over a converted
file. -/
theorem speech_to_text_converted_cleanup_witness :
    convert_to_wav okEnv.decodeExport "uploads/a.mp3" = "uploads/a_converted.wav" ∧
    okEnv.loadOk "uploads/a_converted.wav" = true ∧
    "uploads/a_converted.wav" ∉ (speech_to_text okEnv "uploads/a.mp3" ∅).2 :=
  ⟨by decide, by decide,
    (speech_to_text_converted_cleanup okEnv "uploads/a.mp3" "uploads/a_converted.wav" ∅
        (by decide) (by decide)).1 ⟨"hello", rfl⟩ (by decide)⟩

/-- The loop body of `context_parts` only ever appends to its accumulator. -/
theorem context_step_append (acc : List String) (t : Turn) :
    context_step acc t = acc ++ context_step [] t := by
  obtain ⟨u, a⟩ := t
  cases u <;> cases a <;> simp [context_step]

/-- Folding the loop body distributes over the initial accumulator. -/
theorem foldl_context_step (l : List Turn) :
    ∀ acc, l.foldl context_step acc = acc ++ l.foldl context_step [] := by
  induction l with
  | nil => intro acc; simp
  | cons t l ih =>
    intro acc
    rw [List.foldl_cons, List.foldl_cons, ih (context_step acc t),
      ih (context_step [] t), context_step_append acc t, List.append_assoc]

/-- Over well-formed turns the fold yields one user line followed by one
assistant line per turn, in order. -/
theorem foldl_context_step_lines (l : List Turn)
    (h : ∀ t ∈ l, t.user.isSome ∧ t.assistant.isSome) :
    l.foldl context_step [] =
      l.flatMap (fun t => ["User: " ++ t.user.getD "", "Assistant: " ++ t.assistant.getD ""]) := by
  induction l with
  | nil => simp
  | cons t l ih =>
    obtain ⟨hu, ha⟩ := h t (List.mem_cons_self t l)
    obtain ⟨u, hu'⟩ := Option.isSome_iff_exists.mp hu
    obtain ⟨a, ha'⟩ := Option.isSome_iff_exists.mp ha
    rw [List.foldl_cons, foldl_context_step,
      ih (fun x hx => h x (List.mem_cons_of_mem t hx)), List.flatMap_cons]
    simp [context_step, hu', ha']

/-- Claim C7: the generation prompt built by `get_contextual_response`
includes at most the five most recent turns of the supplied history, each
included turn contributing one user line followed by one assistant line, the
included turns being a suffix of the history (hence in original chronological
order); when any lines were produced, the full prompt embeds exactly their
newline join. -/
theorem contextual_response_window (conversation_history : List Turn)
    (current_text : String)
    (hw : conversation_history.all (fun t => t.user.isSome && t.assistant.isSome) = true) :
    context_parts conversation_history =
      (conversation_history.drop (conversation_history.length - 5)).flatMap
        (fun t => ["User: " ++ t.user.getD "", "Assistant: " ++ t.assistant.getD ""])
    ∧ (conversation_history.drop (conversation_history.length - 5)).length ≤ 5
    ∧ conversation_history.drop (conversation_history.length - 5) <:+ conversation_history
    ∧ (context_parts conversation_history ≠ [] →
        contextual_prompt current_text conversation_history =
          contextual_prompt_pre ++
            String.intercalate "\n" (context_parts conversation_history) ++
            contextual_prompt_post current_text) := by
  refine ⟨?_, ?_, ?_, ?_⟩
  · apply foldl_context_step_lines
    intro t ht
    have := List.all_eq_true.mp hw t (List.mem_of_mem_drop ht)
    simpa using this
  · simp
    omega
  · exact ⟨conversation_history.take (conversation_history.length - 5),
      List.take_append_drop _ _⟩
  · intro h
    dsimp only [contextual_prompt]
    rw [if_pos h]

/-- Witness for C7 at a concrete eight-turn history: exactly the last five
turns contribute lines. -/
theorem contextual_response_window_witness :
    history8.all (fun t => t.user.isSome && t.assistant.isSome) = true ∧
    (context_parts history8 =
      (history8.drop (history8.length - 5)).flatMap
        (fun t => ["User: " ++ t.user.getD "", "Assistant: " ++ t.assistant.getD ""])
    ∧ (history8.drop (history8.length - 5)).length ≤ 5
    ∧ history8.drop (history8.length - 5) <:+ history8
    ∧ (context_parts history8 ≠ [] →
        contextual_prompt "now" history8 =
          contextual_prompt_pre ++
            String.intercalate "\n" (context_parts history8) ++
            contextual_prompt_post "now")) :=
  ⟨by decide, contextual_response_window history8 "now" (by decide)⟩

/-- Claim C10: `allowed_file` accepts a filename exactly when it contains a
dot and the lowercased substring after the last dot is in the allow-list;
consequently a dot-free filename is rejected, and matching is
case-insensitive, e.g. `A.WAV` is accepted. -/
theorem allowed_file_characterization :
    (∀ f : String, allowed_file f = true ↔
        ∃ pre post : List Char, f.data = pre ++ '.' :: post ∧ '.' ∉ post ∧
          ((post.map Char.toLower).asString ∈ ALLOWED_EXTENSIONS))
    ∧ (∀ f : String, '.' ∉ f.data → allowed_file f = false)
    ∧ allowed_file "A.WAV" = true ∧ allowed_file "audiofile" = false := by
  have hchar : ∀ f : String, allowed_file f = true ↔
      ∃ pre post : List Char, f.data = pre ++ '.' :: post ∧ '.' ∉ post ∧
        ((post.map Char.toLower).asString ∈ ALLOWED_EXTENSIONS) := by
    intro f
    constructor
    · intro h
      rw [allowed_file, Bool.and_eq_true] at h
      obtain ⟨h1, h2⟩ := h
      have hdot : '.' ∈ f.data := List.elem_iff.mp h1
      obtain ⟨pre, hsplit, hnot⟩ := afterLastDotL_decomp f.data hdot
      exact ⟨pre, afterLastDotL f.data, hsplit, hnot, List.elem_iff.mp h2⟩
    · rintro ⟨pre, post, hsplit, hnot, hmem⟩
      rw [allowed_file, Bool.and_eq_true]
      refine ⟨List.elem_iff.mpr ?_, ?_⟩
      · rw [hsplit]
        exact List.mem_append_right _ (List.mem_cons_self _ _)
      · rw [hsplit, afterLastDotL_append pre post hnot]
        exact List.elem_iff.mpr hmem
  refine ⟨hchar, ?_, by decide, by decide⟩
  intro f hdot
  by_contra hne
  have htrue : allowed_file f = true := by
    cases hb : allowed_file f
    · exact absurd hb hne
    · rfl
  obtain ⟨pre, post, hsplit, -, -⟩ := (hchar f).mp htrue
  exact hdot (by rw [hsplit]; exact List.mem_append_right _ (List.mem_cons_self _ _))

/-- Witness for C10 at the dot-free filename `plainname`. -/
theorem allowed_file_characterization_witness :
    ('.' ∉ ("plainname" : String).data) ∧ allowed_file "plainname" = false :=
  ⟨by decide, allowed_file_characterization.2.1 "plainname" (by decide)⟩
